import Mathlib

/-!
Verification of the fan-out relay in `nameserver.py` (the `snfcode`
repository) against its natural-language specification.

The embedding is shallow: each Python method of the core relay is
translated to a Lean function over explicit state.  The connection count
`__count` is a Python `int`, modelled as `Int`; the shared
`multiprocessing.Queue(100)` is modelled as a bounded list of strings
with the documented stdlib semantics of `put`, `get(0)` and `empty`;
exceptions are modelled with `Except`; side effects (creating a
`ConnectionHandler`, closing a socket) are recorded explicitly as
effect values.
-/

/-- Python exceptions raised or caught by the code under study:
`queue.Empty` (caught in `handle_write`), `ValueError` (raised by
`NameServer.unregister`), `RuntimeError` (raised by
`AsyncoreProcess.add`). -/
inductive PyErr where
  | queueEmpty
  | valueError
  | runtimeError
deriving DecidableEq, Repr

/-- Capacity of the shared queue, from `multiprocessing.Queue(100)` at
nameserver.py line 176. -/
def QCAP : Nat := 100

/-- The shared queue of pending messages, newest at the back. -/
abbrev MQueue := List String

/-- Models `multiprocessing.Queue.put` on a queue of maximum size
`QCAP`: the item is appended when the queue is not full; a full queue
blocks the caller, modelled as `none`. -/
def mq_put (q : MQueue) (x : String) : Option MQueue :=
  if q.length < QCAP then some (q ++ [x]) else none

/-- Models the non-blocking `Queue.get(0)` used at nameserver.py line
45: returns the head item and the remaining queue, or raises
`queue.Empty` when the queue is empty. -/
def mq_get (q : MQueue) : Except PyErr (String × MQueue) :=
  match q with
  | [] => Except.error PyErr.queueEmpty
  | x :: rest => Except.ok (x, rest)

/-- Models `Queue.empty()` used by `ConnectionHandler.writable`. -/
def mq_empty (q : MQueue) : Bool := q.isEmpty

/-- `NameServer.MAXCONN` (nameserver.py line 93). -/
def MAXCONN : Int := 10

/-- Side effects performed by `NameServer.handle_accept` on the
accepted socket: constructing a `ConnectionHandler` for it, or
explicitly closing it.  The translation records exactly the effectful
statements present in the source body. -/
inductive Effect where
  | createHandler
  | closeSocket
deriving DecidableEq, Repr

/-- Result of one `handle_accept` call: the new connection count and
the effects performed on the accepted socket. -/
structure AcceptResult where
  count : Int
  effects : List Effect
deriving DecidableEq, Repr

/-- `NameServer.handle_accept` (nameserver.py lines 104-114).
`pairPresent` is whether `self.accept()` returned a pair rather than
`None`.  When a pair is present and `__count < MAXCONN`, the count is
incremented and a `ConnectionHandler` is constructed; otherwise the
body does nothing: in particular the rejected socket is never closed by
the method, its reference is simply dropped. -/
def handle_accept (count : Int) (pairPresent : Bool) : AcceptResult :=
  if pairPresent = true ∧ count < MAXCONN then
    { count := count + 1, effects := [Effect.createHandler] }
  else
    { count := count, effects := [] }

/-- `NameServer.unregister` (nameserver.py lines 116-122): raises
`ValueError` when `__count <= 0`, otherwise decrements the count. -/
def unregister (count : Int) : Except PyErr Int :=
  if count ≤ 0 then Except.error PyErr.valueError
  else Except.ok (count - 1)

/-- Operations that change the connection count of a `NameServer`. -/
inductive SOp where
  | accept (pairPresent : Bool)
  | unreg
deriving DecidableEq, Repr

/-- One registry operation applied to the count.  A raising
`unregister` leaves the count unchanged (the exception propagates
before the decrement). -/
def sstep (c : Int) : SOp → Int
  | SOp.accept p => (handle_accept c p).count
  | SOp.unreg =>
      match unregister c with
      | Except.ok c2 => c2
      | Except.error _ => c

/-- Connection count reached from a fresh server (`__count = 0`,
nameserver.py line 96) after a sequence of registry operations. -/
def reach (ops : List SOp) : Int := List.foldl sstep 0 ops

theorem sstep_bounds (c : Int) (op : SOp) (h0 : 0 ≤ c) (h1 : c ≤ MAXCONN) :
    0 ≤ sstep c op ∧ sstep c op ≤ MAXCONN := by
  cases op with
  | accept p =>
      simp only [sstep, handle_accept]
      by_cases hp : p = true ∧ c < MAXCONN
      · simp only [if_pos hp]
        exact ⟨by omega, by omega⟩
      · simp only [if_neg hp]
        exact ⟨h0, h1⟩
  | unreg =>
      simp only [sstep, unregister]
      by_cases hc : c ≤ 0
      · simp only [if_pos hc]
        exact ⟨h0, h1⟩
      · simp only [if_neg hc]
        exact ⟨by omega, by omega⟩

theorem foldl_sstep_bounds (ops : List SOp) (c : Int)
    (h0 : 0 ≤ c) (h1 : c ≤ MAXCONN) :
    0 ≤ List.foldl sstep c ops ∧ List.foldl sstep c ops ≤ MAXCONN := by
  induction ops generalizing c with
  | nil => exact ⟨h0, h1⟩
  | cons op rest ih =>
      have hb := sstep_bounds c op h0 h1
      exact ih (sstep c op) hb.1 hb.2

/-- C1: in every state reachable from a fresh `NameServer` by
`handle_accept` and `unregister`, the connection count `n` satisfies
`0 ≤ n ≤ MAXCONN`; after `MAXCONN` consecutive accepted registrations
the next accept attempt is rejected with the count unchanged and no
handler created, and after one `unregister` the next registration
succeeds again. -/
theorem registry_count_invariant_and_capacity_cycle :
    (∀ ops : List SOp, 0 ≤ reach ops ∧ reach ops ≤ MAXCONN) ∧
    reach (List.replicate 10 (SOp.accept true)) = 10 ∧
    handle_accept 10 true = { count := 10, effects := [] } ∧
    unregister 10 = Except.ok 9 ∧
    handle_accept 9 true =
      { count := 10, effects := [Effect.createHandler] } := by
  refine ⟨fun ops => foldl_sstep_bounds ops 0 le_rfl (by decide), ?_, ?_, ?_, ?_⟩
  · decide
  · decide
  · rfl
  · decide

/-- C2: starting from a fresh server, in every reachable state
`unregister` raises exactly when the count is `0`, and otherwise
returns the count decremented by exactly one — it never clamps the
count and never lets it go negative. -/
theorem unregister_raises_iff_zero (ops : List SOp) :
    unregister (reach ops) =
      if reach ops = 0 then Except.error PyErr.valueError
      else Except.ok (reach ops - 1) := by
  have h0 : 0 ≤ reach ops := (foldl_sstep_bounds ops 0 le_rfl (by decide)).1
  unfold unregister
  by_cases hz : reach ops = 0
  · simp [hz]
  · have hpos : ¬ reach ops ≤ 0 := by omega
    simp [hz, hpos]

/-- C3 counterexample: when an accept event arrives at full capacity
(`count = MAXCONN = 10`), `handle_accept` performs no effect at all on
the accepted socket — in particular it does not close it, refuting the
claim that the socket is closed immediately.  (The count is indeed
unchanged and no handler is created.) -/
theorem rejected_socket_not_closed :
    (handle_accept 10 true).count = 10 ∧
    Effect.createHandler ∉ (handle_accept 10 true).effects ∧
    Effect.closeSocket ∉ (handle_accept 10 true).effects := by
  decide

/-- C3 amended: for every accept event arriving while the count equals
`MAXCONN`, no connection handler is created, the registry count is
unchanged, and the accepted socket is simply dropped without any
explicit close call (its disposal is left to the language runtime). -/
theorem reject_at_capacity_drops_silently (p : Bool) :
    handle_accept MAXCONN p = { count := MAXCONN, effects := [] } := by
  cases p <;> decide

/-- UTF-8 encoding of one character (the standard Unicode scheme),
modelling what Python's `bytes(s, 'utf-8')` produces per code point. -/
def utf8Bytes (c : Char) : List Nat :=
  let n := c.toNat
  if n < 128 then [n]
  else if n < 2048 then
    [192 + n / 64, 128 + n % 64]
  else if n < 65536 then
    [224 + n / 4096, 128 + (n / 64) % 64, 128 + n % 64]
  else
    [240 + n / 262144, 128 + (n / 4096) % 64, 128 + (n / 64) % 64, 128 + n % 64]

/-- UTF-8 encoding of a character sequence. -/
def encodeUTF8 (cs : List Char) : List Nat := (cs.map utf8Bytes).flatten

/-- The bytes `ConnectionHandler.handle_write` hands to the transport
for one message: `bytes(item + chr(10), 'utf-8')` (nameserver.py line
49 writes the item followed by a newline). -/
def serialize (item : String) : List Nat :=
  encodeUTF8 (item.data ++ [Char.ofNat 10])

/-- The terminator set for INCOMING data by `ConnectionHandler.__init__`
(nameserver.py line 28, `set_terminator` with CR LF CR LF); it plays no
role in the outgoing framing. -/
def incomingTerminator : List Nat := [13, 10, 13, 10]

theorem encodeUTF8_append (a b : List Char) :
    encodeUTF8 (a ++ b) = encodeUTF8 a ++ encodeUTF8 b := by
  simp [encodeUTF8, List.map_append, List.flatten_append]

theorem takeWhile_until_newline (l : List Nat) (h : (10 : Nat) ∉ l) :
    List.takeWhile (fun b => ! (b == 10)) (l ++ [10]) = l := by
  induction l with
  | nil => simp [List.takeWhile]
  | cons x r ih =>
      simp only [List.mem_cons, not_or] at h
      have hx : (x == 10) = false := beq_eq_false_iff_ne.mpr (fun he => h.1 he.symm)
      simp [List.takeWhile, hx, ih h.2]

/-- C4 counterexample: there is no fixed multi-byte terminator (length
at least two) that `handle_write` appends after the UTF-8 text of every
message; the suffix the code appends is forced to be the single byte
`10` by evaluating the serializer on the empty message. -/
theorem no_multibyte_wire_terminator :
    ¬ ∃ t : List Nat, 2 ≤ t.length ∧
      ∀ msg : String, serialize msg = encodeUTF8 msg.data ++ t := by
  rintro ⟨t, ht, hall⟩
  have h0 := hall ""
  have he : serialize "" = [10] := by decide
  have hd : encodeUTF8 (String.data "") = [] := by decide
  rw [he, hd, List.nil_append] at h0
  rw [← h0] at ht
  simp at ht

/-- C4 amended: for every message string, the bytes written for it are
the UTF-8 text of the message followed by the single byte `10` (LF) — a
one-byte terminator identical to an in-text newline, not a multi-byte
sequence; a consumer reading until the newline byte reconstitutes the
message exactly when the message text itself encodes to no newline
byte. -/
theorem wire_framing_single_newline (msg : String) :
    serialize msg = encodeUTF8 msg.data ++ [10] ∧
    ((10 : Nat) ∉ encodeUTF8 msg.data →
      List.takeWhile (fun b => ! (b == 10)) (serialize msg) =
        encodeUTF8 msg.data) := by
  have hs : serialize msg = encodeUTF8 msg.data ++ [10] := by
    rw [serialize, encodeUTF8_append]
    rfl
  exact ⟨hs, fun h => by rw [hs]; exact takeWhile_until_newline _ h⟩

/-- Witness for the amended C4: the newline-free message made of the
characters a and b, and a message carrying an in-text newline, for
which the wire bytes still end in the single terminator byte. -/
theorem wire_framing_single_newline_witness :
    (serialize "ab" = encodeUTF8 (String.data "ab") ++ [10] ∧
     ((10 : Nat) ∉ encodeUTF8 (String.data "ab") →
       List.takeWhile (fun b => ! (b == 10)) (serialize "ab") =
         encodeUTF8 (String.data "ab"))) ∧
    serialize "a\nb" = encodeUTF8 (String.data "a\nb") ++ [10] :=
  ⟨wire_framing_single_newline "ab", (wire_framing_single_newline "a\nb").1⟩

/-- `ConnectionHandler.writable` (nameserver.py lines 59-64):
`parent or not self.__server._queue.empty()`, where `parent` is the
writability test of the underlying `async_chat` transport. -/
def writable (parentWritable : Bool) (q : MQueue) : Bool :=
  parentWritable || ! mq_empty q

/-- C6: `writable` returns true exactly when the underlying transport
reports writable or the shared queue is non-empty. -/
theorem writable_iff_parent_or_queue_nonempty (p : Bool) (q : MQueue) :
    writable p q = true ↔ (p = true ∨ q ≠ []) := by
  cases p <;> cases q <;> simp [writable, mq_empty]

/-- Result of one `ConnectionHandler.handle_write` call: the remaining
queue, the byte strings appended to the transport send buffer by
`self.push`, and whether the parent `async_chat.handle_write` flush was
invoked. -/
structure HWResult where
  queue : MQueue
  pushed : List (List Nat)
  parentFlush : Bool
deriving DecidableEq, Repr

/-- `ConnectionHandler.handle_write` (nameserver.py lines 40-50): try
one non-blocking `get` on the server's queue; on `queue.Empty` do
nothing (`pass`); otherwise push the item serialized with a trailing
newline; in either case finish with `super().handle_write()`. -/
def handle_write (q : MQueue) : Except PyErr HWResult :=
  match mq_get q with
  | Except.error PyErr.queueEmpty =>
      Except.ok { queue := q, pushed := [], parentFlush := true }
  | Except.error e => Except.error e
  | Except.ok (item, q2) =>
      Except.ok { queue := q2, pushed := [serialize item], parentFlush := true }

/-- C7: on every writable opportunity `handle_write` pops the shared
queue exactly once; when an item is returned it appends that item
serialized as text plus terminator to the send buffer, when the queue
is empty it appends nothing, and in both cases it falls through to the
parent transport flush and never returns an error — the queue-empty
condition is swallowed. -/
theorem handle_write_one_pop_never_errors (q : MQueue) :
    handle_write q =
      Except.ok
        (match q with
         | [] => { queue := [], pushed := [], parentFlush := true }
         | x :: rest =>
             { queue := rest, pushed := [serialize x], parentFlush := true }) := by
  cases q <;> rfl

/-- One operation on the shared `multiprocessing.Queue(100)`: a
producer `put` or a consumer non-blocking `get`. -/
inductive QOp where
  | put (x : String)
  | get
deriving DecidableEq, Repr

/-- Trace state of the shared queue: current items, the items returned
by successful pops so far (in pop order), and whether some `put` has
found the queue full (a full queue blocks the producer). -/
structure QState where
  items : List String
  popped : List String
  blocked : Bool
deriving DecidableEq, Repr

/-- A freshly created `multiprocessing.Queue(100)`. -/
def qinit : QState := { items := [], popped := [], blocked := false }

/-- Effect of one queue operation: `put` appends when the queue holds
fewer than `QCAP` items and otherwise marks the trace blocked; `get`
removes and records the head item, or does nothing on an empty
queue (the `queue.Empty` outcome). -/
def qstep (s : QState) : QOp → QState
  | QOp.put x =>
      if s.items.length < QCAP then
        { s with items := s.items ++ [x] }
      else
        { s with blocked := true }
  | QOp.get =>
      match s.items with
      | [] => s
      | x :: rest => { s with items := rest, popped := s.popped ++ [x] }

/-- Run a queue trace from the fresh queue. -/
def runQ (ops : List QOp) : QState := List.foldl qstep qinit ops

/-- The items pushed by a trace, in push order. -/
def putsOf (ops : List QOp) : List String :=
  ops.filterMap (fun op => match op with | QOp.put x => some x | QOp.get => none)

theorem qstep_blocked (s : QState) (op : QOp) (h : s.blocked = true) :
    (qstep s op).blocked = true := by
  cases op with
  | put x =>
      by_cases hl : s.items.length < QCAP <;> simp [qstep, hl, h]
  | get =>
      cases hi : s.items <;> simp [qstep, hi, h]

theorem foldl_qstep_blocked (ops : List QOp) (s : QState) (h : s.blocked = true) :
    (List.foldl qstep s ops).blocked = true := by
  induction ops generalizing s with
  | nil => exact h
  | cons op rest ih => exact ih (qstep s op) (qstep_blocked s op h)

theorem foldl_qstep_fifo (ops : List QOp) (s : QState)
    (h : (List.foldl qstep s ops).blocked = false) :
    (List.foldl qstep s ops).popped ++ (List.foldl qstep s ops).items =
      s.popped ++ s.items ++ putsOf ops := by
  induction ops generalizing s with
  | nil => simp [putsOf]
  | cons op rest ih =>
      simp only [List.foldl_cons] at h ⊢
      cases op with
      | put x =>
          by_cases hl : s.items.length < QCAP
          · have := ih (qstep s (QOp.put x)) h
            simp [qstep, hl, putsOf] at this ⊢
            rw [this]
          · exfalso
            have hb : (qstep s (QOp.put x)).blocked = true := by
              simp [qstep, hl]
            have := foldl_qstep_blocked rest _ hb
            rw [this] at h
            exact Bool.noConfusion h
      | get =>
          cases hi : s.items with
          | nil =>
              have := ih (qstep s QOp.get) h
              simp [qstep, hi, putsOf] at this ⊢
              exact this
          | cons x rest2 =>
              have := ih (qstep s QOp.get) h
              simp [qstep, hi, putsOf] at this ⊢
              rw [this]

theorem foldl_qstep_len (ops : List QOp) (s : QState)
    (h : s.items.length ≤ QCAP) :
    (List.foldl qstep s ops).items.length ≤ QCAP := by
  induction ops generalizing s with
  | nil => exact h
  | cons op rest ih =>
      apply ih
      cases op with
      | put x =>
          by_cases hl : s.items.length < QCAP <;> simp [qstep, hl] <;> omega
      | get =>
          cases hi : s.items with
          | nil => simp [qstep, hi]
          | cons x r => simp [qstep, hi] at h ⊢; omega

/-- C5: for every trace of puts and non-blocking gets in which no put
ever finds the queue full (the held-item count never exceeds the
capacity 100), the popped items followed by the remaining items are
exactly the pushed items in push order — so successive pops return the
pushed items FIFO — and the queue length never exceeds the capacity.
Since the trace is arbitrary, the length bound at every intermediate
moment is the bound for the corresponding prefix trace. -/
theorem queue_fifo_and_bounded (ops : List QOp)
    (h : (runQ ops).blocked = false) :
    (runQ ops).popped ++ (runQ ops).items = putsOf ops ∧
    (runQ ops).items.length ≤ QCAP := by
  constructor
  · have := foldl_qstep_fifo ops qinit h
    simpa [qinit] using this
  · exact foldl_qstep_len ops qinit (by simp [qinit])

/-- Witness for C5 on the concrete trace push a, push b, pop, push c. -/
theorem queue_fifo_and_bounded_witness :
    (runQ [QOp.put "a", QOp.put "b", QOp.get, QOp.put "c"]).blocked = false ∧
    ((runQ [QOp.put "a", QOp.put "b", QOp.get, QOp.put "c"]).popped ++
       (runQ [QOp.put "a", QOp.put "b", QOp.get, QOp.put "c"]).items =
       putsOf [QOp.put "a", QOp.put "b", QOp.get, QOp.put "c"] ∧
     (runQ [QOp.put "a", QOp.put "b", QOp.get, QOp.put "c"]).items.length ≤ QCAP) :=
  ⟨by decide, queue_fifo_and_bounded _ (by decide)⟩

/-- Lifecycle states of a `multiprocessing.Process`: not yet started,
started and running, or started and already terminated. -/
inductive ProcState where
  | notStarted
  | alive
  | terminated
deriving DecidableEq, Repr

/-- Models `multiprocessing.Process.is_alive`, which is true from
`start()` until the child process terminates and false afterwards. -/
def is_alive (st : ProcState) : Bool :=
  match st with
  | ProcState.alive => true
  | _ => false

/-- `AsyncoreProcess.add` (nameserver.py lines 143-151): raises
`RuntimeError` when `self.is_alive()`, otherwise appends the component
to `self.__inits`.  Components are identified by their class name. -/
def add (inits : List String) (st : ProcState) (c : String) :
    Except PyErr (List String) :=
  if is_alive st = true then Except.error PyErr.runtimeError
  else Except.ok (inits ++ [c])

/-- Events performed by `AsyncoreProcess.run`. -/
inductive RunEv where
  | instantiate (c : String)
  | loopEnter
deriving DecidableEq, Repr

/-- `AsyncoreProcess.run` (nameserver.py lines 153-159): instantiate
every added component in list order, then enter `asyncore.loop`. -/
def runEvents (inits : List String) : List RunEv :=
  (inits.map RunEv.instantiate) ++ [RunEv.loopEnter]

/-- C9: evaluation at the failing input.  The claim (and the method's
own docstring, which permits `add` only before the process has been
started) says that `add` raises after start; but on a process that has
started and already terminated, `is_alive()` is false, so `add` appends
the component and returns normally instead of raising.  While the
process is alive the claimed error is raised, and `run` instantiates
the added components in order before entering the dispatch loop. -/
theorem add_after_termination_is_permitted :
    is_alive ProcState.terminated = false ∧
    add [] ProcState.terminated "NameServer" = Except.ok ["NameServer"] ∧
    add [] ProcState.alive "NameServer" = Except.error PyErr.runtimeError ∧
    runEvents ["NameServer"] = [RunEv.instantiate "NameServer", RunEv.loopEnter] :=
  ⟨rfl, rfl, rfl, rfl⟩

/-- Observable state of the relay: the server's connection count, the
shared queue, and the byte strings handed to consumer transports. -/
structure SysState where
  count : Int
  queue : MQueue
  sent : List (List Nat)
deriving DecidableEq, Repr

/-- `ConnectionHandler.collect_incoming_data` (nameserver.py lines
30-33): the body is empty, so bytes received from a consumer change
nothing. -/
def collect_incoming_data (s : SysState) (_data : List Nat) : SysState := s

/-- `ConnectionHandler.found_terminator` (nameserver.py lines 35-38):
the body is empty. -/
def found_terminator (s : SysState) : SysState := s

/-- Events driving the relay: bytes arriving from a consumer, the
incoming terminator being found, a writable opportunity, a producer
push, an accept event, and a connection close. -/
inductive Ev where
  | recvData (d : List Nat)
  | recvTerm
  | writeReady
  | pushMsg (m : String)
  | acceptEv (pairPresent : Bool)
  | closeEv
deriving DecidableEq, Repr

/-- Dispatch of one event to the translated handler methods. -/
def sysStep (s : SysState) : Ev → SysState
  | Ev.recvData d => collect_incoming_data s d
  | Ev.recvTerm => found_terminator s
  | Ev.writeReady =>
      match handle_write s.queue with
      | Except.ok r => { s with queue := r.queue, sent := s.sent ++ r.pushed }
      | Except.error _ => s
  | Ev.pushMsg m =>
      match mq_put s.queue m with
      | some q2 => { s with queue := q2 }
      | none => s
  | Ev.acceptEv p => { s with count := (handle_accept s.count p).count }
  | Ev.closeEv =>
      match unregister s.count with
      | Except.ok c2 => { s with count := c2 }
      | Except.error _ => s

/-- Fresh relay: no connections, empty queue, nothing sent. -/
def sysInit : SysState := { count := 0, queue := [], sent := [] }

/-- Run an event trace from the fresh relay. -/
def sysRun (evs : List Ev) : SysState := List.foldl sysStep sysInit evs

/-- Two event traces that agree everywhere except in the payloads of
the bytes consumers send to the server. -/
inductive DiffOnlyRecv : List Ev → List Ev → Prop where
  | nil : DiffOnlyRecv [] []
  | recv (d1 d2 : List Nat) (t1 t2 : List Ev) (h : DiffOnlyRecv t1 t2) :
      DiffOnlyRecv (Ev.recvData d1 :: t1) (Ev.recvData d2 :: t2)
  | same (e : Ev) (t1 t2 : List Ev) (h : DiffOnlyRecv t1 t2) :
      DiffOnlyRecv (e :: t1) (e :: t2)

theorem foldl_sysStep_diff (t1 t2 : List Ev) (h : DiffOnlyRecv t1 t2) :
    ∀ s : SysState, List.foldl sysStep s t1 = List.foldl sysStep s t2 := by
  induction h with
  | nil => intro s; rfl
  | recv d1 d2 u1 u2 h ih =>
      intro s
      simp only [List.foldl_cons]
      have h1 : sysStep s (Ev.recvData d1) = s := rfl
      have h2 : sysStep s (Ev.recvData d2) = s := rfl
      rw [h1, h2]
      exact ih s
  | same e u1 u2 h ih =>
      intro s
      simp only [List.foldl_cons]
      exact ih (sysStep s e)

/-- C10: bytes sent by a consumer to the relay are completely ignored —
`collect_incoming_data` and `found_terminator` change no state — so two
runs whose event traces differ only in the data consumers send leave
the queue, the connection count, and the bytes delivered to every
consumer identical. -/
theorem consumer_input_noninterference (t1 t2 : List Ev)
    (h : DiffOnlyRecv t1 t2) : sysRun t1 = sysRun t2 :=
  foldl_sysStep_diff t1 t2 h sysInit

/-- Witness for C10 on two concrete traces differing only in the
consumer-sent payload. -/
theorem consumer_input_noninterference_witness :
    DiffOnlyRecv [Ev.recvData [1], Ev.pushMsg "hi", Ev.writeReady]
      [Ev.recvData [2, 3], Ev.pushMsg "hi", Ev.writeReady] ∧
    sysRun [Ev.recvData [1], Ev.pushMsg "hi", Ev.writeReady] =
      sysRun [Ev.recvData [2, 3], Ev.pushMsg "hi", Ev.writeReady] :=
  ⟨DiffOnlyRecv.recv [1] [2, 3] _ _
      (DiffOnlyRecv.same (Ev.pushMsg "hi") _ _
        (DiffOnlyRecv.same Ev.writeReady _ _ DiffOnlyRecv.nil)),
   consumer_input_noninterference _ _
     (DiffOnlyRecv.recv [1] [2, 3] _ _
       (DiffOnlyRecv.same (Ev.pushMsg "hi") _ _
         (DiffOnlyRecv.same Ev.writeReady _ _ DiffOnlyRecv.nil)))⟩
